import Mathlib

/-!
Verification of the MarryChristmas particle engine (HolidayApp) against its
natural-language specification.  The definitions below are a shallow
embedding of the TypeScript source: the per-frame integrator loop in
`HolidayApp.update`, the descriptor generator `HolidayApp.initTreeParticles`,
the recoloring pass `HolidayApp.updateTreeColors`, the pointer handlers, and
the `Meteor` pool.  JavaScript number arithmetic is modelled exactly over
`ℚ` (where the source only uses field operations) or over `ℝ` (where the
source uses `Math.pow` with fractional exponents, `Math.sin`, `Math.sqrt`
or `Math.PI`).
-/

/-- `CONFIG.tiers` of the source (both files set it to 30). -/
def tiersC : ℕ := 30

/-- `CONFIG.treeHeight`. -/
def treeHeightC : ℝ := 95

/-- `CONFIG.treeRadius`. -/
def treeRadiusC : ℝ := 52

/-- `CONFIG.treeParticleCount`. -/
def treeParticleCountC : ℕ := 100000

/-- The mode enumeration `type Mode = 'TREE' | 'SCATTER'`. -/
inductive Mode where
  | TREE
  | SCATTER
deriving DecidableEq, BEq, Repr

/-! ### Integrator (claim about `update`, lines with `positions[idx] += (tx - positions[idx]) * 0.06`) -/

/-- A 3-vector of exact rationals, standing for one particle slot of the
position buffer together with its target. -/
structure Vec3 where
  x : ℚ
  y : ℚ
  z : ℚ
deriving DecidableEq, Repr

/-- One integrator step of `HolidayApp.update`:
`positions[idx] += (tx - positions[idx]) * 0.06` on each component. -/
def stepPos (p target : Vec3) : Vec3 :=
  ⟨p.x + (target.x - p.x) * 0.06,
   p.y + (target.y - p.y) * 0.06,
   p.z + (target.z - p.z) * 0.06⟩

/-- `n` integrator steps toward a constant target. -/
def iterSteps : ℕ → Vec3 → Vec3 → Vec3
  | 0, p, _ => p
  | n + 1, p, t => stepPos (iterSteps n p t) t

/-- Squared Euclidean distance between two buffer slots. -/
def distSq (p t : Vec3) : ℚ :=
  (p.x - t.x) ^ 2 + (p.y - t.y) ^ 2 + (p.z - t.z) ^ 2

/-- Euclidean distance between two buffer slots. -/
noncomputable def dist3 (p t : Vec3) : ℝ :=
  Real.sqrt ((distSq p t : ℚ) : ℝ)

theorem distSq_nonneg (p t : Vec3) : 0 ≤ distSq p t := by
  unfold distSq; positivity

theorem distSq_step (p t : Vec3) :
    distSq (stepPos p t) t = (2209 / 2500) * distSq p t := by
  unfold stepPos distSq
  ring

theorem distSq_eq_zero_iff (p t : Vec3) : distSq p t = 0 ↔ p = t := by
  unfold distSq
  constructor
  · intro h
    have hx2 : (p.x - t.x) ^ 2 = 0 := by
      nlinarith [sq_nonneg (p.x - t.x), sq_nonneg (p.y - t.y), sq_nonneg (p.z - t.z)]
    have hy2 : (p.y - t.y) ^ 2 = 0 := by
      nlinarith [sq_nonneg (p.x - t.x), sq_nonneg (p.y - t.y), sq_nonneg (p.z - t.z)]
    have hz2 : (p.z - t.z) ^ 2 = 0 := by
      nlinarith [sq_nonneg (p.x - t.x), sq_nonneg (p.y - t.y), sq_nonneg (p.z - t.z)]
    have hx := sub_eq_zero.mp (sq_eq_zero_iff.mp hx2)
    have hy := sub_eq_zero.mp (sq_eq_zero_iff.mp hy2)
    have hz := sub_eq_zero.mp (sq_eq_zero_iff.mp hz2)
    cases p; cases t
    simp_all
  · intro h; subst h; ring

theorem distSq_pos_of_ne {p t : Vec3} (h : p ≠ t) : 0 < distSq p t := by
  rcases lt_or_eq_of_le (distSq_nonneg p t) with hlt | heq
  · exact hlt
  · exact absurd ((distSq_eq_zero_iff p t).mp heq.symm) h

theorem edist_nonneg (p t : Vec3) : 0 ≤ dist3 p t := Real.sqrt_nonneg _

theorem edist_pos_of_ne {p t : Vec3} (h : p ≠ t) : 0 < dist3 p t := by
  unfold dist3
  apply Real.sqrt_pos.mpr
  exact_mod_cast distSq_pos_of_ne h

theorem edist_step (p t : Vec3) : dist3 (stepPos p t) t = (47 / 50) * dist3 p t := by
  unfold dist3
  rw [distSq_step]
  push_cast
  rw [show ((2209 : ℝ) / 2500) = (47 / 50) ^ 2 by norm_num,
      Real.sqrt_mul (by positivity), Real.sqrt_sq (by norm_num)]

theorem distSq_iter (n : ℕ) (p t : Vec3) :
    distSq (iterSteps n p t) t = (2209 / 2500) ^ n * distSq p t := by
  induction n with
  | zero => simp [iterSteps]
  | succ k ih =>
    show distSq (stepPos (iterSteps k p t) t) t = _
    rw [distSq_step, ih]; ring

theorem edist_iter (n : ℕ) (p t : Vec3) :
    dist3 (iterSteps n p t) t = (47 / 50) ^ n * dist3 p t := by
  unfold dist3
  rw [distSq_iter]
  push_cast
  rw [show ((2209 : ℝ) / 2500) = (47 / 50) ^ 2 by norm_num,
      ← pow_mul, Nat.mul_comm 2 n, pow_mul,
      Real.sqrt_mul (by positivity), Real.sqrt_sq (by positivity)]

/-- C1: starting from any position and a constant target, every integrator
step `position += (target - position) * 0.06` of `HolidayApp.update`
strictly decreases the Euclidean distance to the target while the position
differs from the target, and after 75 steps the remaining distance is at
most 1% of the initial distance. -/
theorem integrator_converges (p t : Vec3) :
    (∀ n : ℕ, iterSteps n p t ≠ t →
        dist3 (iterSteps (n + 1) p t) t < dist3 (iterSteps n p t) t)
    ∧ dist3 (iterSteps 75 p t) t ≤ (1 / 100) * dist3 p t := by
  constructor
  · intro n hne
    have h1 : dist3 (iterSteps (n + 1) p t) t = (47 / 50) * dist3 (iterSteps n p t) t := by
      show dist3 (stepPos (iterSteps n p t) t) t = _
      exact edist_step _ _
    have h2 : 0 < dist3 (iterSteps n p t) t := edist_pos_of_ne hne
    rw [h1]
    nlinarith
  · rw [edist_iter]
    have h1 : ((47 : ℝ) / 50) ^ 75 ≤ 1 / 100 := by norm_num
    have h2 : 0 ≤ dist3 p t := edist_nonneg p t
    nlinarith

/-- C1 witness: the convergence theorem instantiated at the concrete start
position (1,0,0) and target (0,0,0); the first step shrinks the distance and
75 steps land within 1%. -/
theorem integrator_converges_witness :
    iterSteps 0 ⟨1, 0, 0⟩ ⟨0, 0, 0⟩ ≠ (⟨0, 0, 0⟩ : Vec3)
    ∧ dist3 (iterSteps 1 ⟨1, 0, 0⟩ ⟨0, 0, 0⟩) ⟨0, 0, 0⟩
        < dist3 (iterSteps 0 ⟨1, 0, 0⟩ ⟨0, 0, 0⟩) ⟨0, 0, 0⟩
    ∧ dist3 (iterSteps 75 ⟨1, 0, 0⟩ ⟨0, 0, 0⟩) ⟨0, 0, 0⟩
        ≤ (1 / 100) * dist3 ⟨1, 0, 0⟩ ⟨0, 0, 0⟩ :=
  ⟨by decide,
   (integrator_converges ⟨1, 0, 0⟩ ⟨0, 0, 0⟩).1 0 (by decide),
   (integrator_converges ⟨1, 0, 0⟩ ⟨0, 0, 0⟩).2⟩

/-! ### Descriptor generation (`HolidayApp.initTreeParticles`)

Each particle samples `Math.random()` draws `u ∈ [0,1)`.  The generator
computes
  `tier = Math.floor(Math.pow(u, 0.35) * CONFIG.tiers)`,
  `branchesPerTier = 8 + tier`,
  `branchAngle = (Math.random() * branchesPerTier) * (Math.PI * 2 / branchesPerTier)`,
  `distFromCenter = Math.random()`.
-/

/-- `distFromCenter = Math.random()` (the branch fraction). -/
def branchFractionOf (u : ℝ) : ℝ := u

/-- `tier = Math.floor(Math.pow(Math.random(), 0.35) * CONFIG.tiers)`. -/
noncomputable def tierOf (u : ℝ) : ℤ :=
  ⌊u ^ (0.35 : ℝ) * (tiersC : ℝ)⌋

/-- `branchAngle = (Math.random() * branchesPerTier) * (Math.PI * 2 / branchesPerTier)`
with `branchesPerTier = 8 + tier`. -/
noncomputable def branchAngleOf (u : ℝ) (tier : ℤ) : ℝ :=
  (u * (8 + (tier : ℝ))) * (Real.pi * 2 / (8 + (tier : ℝ)))

theorem tierOf_nonneg {u : ℝ} (h0 : 0 ≤ u) : 0 ≤ tierOf u := by
  unfold tierOf
  apply Int.floor_nonneg.mpr
  have := Real.rpow_nonneg h0 (0.35 : ℝ)
  positivity

theorem tierOf_lt {u : ℝ} (h0 : 0 ≤ u) (h1 : u < 1) : tierOf u < (tiersC : ℤ) := by
  unfold tierOf
  apply Int.floor_lt.mpr
  have hrp : u ^ (0.35 : ℝ) < 1 := Real.rpow_lt_one h0 h1 (by norm_num)
  have h30 : (0 : ℝ) < (tiersC : ℝ) := by norm_num [tiersC]
  push_cast
  nlinarith

theorem branchAngleOf_eq {u : ℝ} {k : ℤ} (hk : 0 ≤ k) :
    branchAngleOf u k = u * (Real.pi * 2) := by
  unfold branchAngleOf
  have hne : (8 : ℝ) + (k : ℝ) ≠ 0 := by
    have : (0 : ℝ) ≤ (k : ℝ) := by exact_mod_cast hk
    linarith
  field_simp
  ring

/-- C2: with every underlying uniform draw in `[0,1)`, the stored descriptor
satisfies `branchFraction ∈ [0,1)`, `tier ∈ [0, tiersC)` with `tiersC = 30`,
and `branchAngle ∈ [0, 2π)`. -/
theorem descriptor_ranges (uf ut ua : ℝ)
    (hf0 : 0 ≤ uf) (hf1 : uf < 1) (ht0 : 0 ≤ ut) (ht1 : ut < 1)
    (ha0 : 0 ≤ ua) (ha1 : ua < 1) :
    (0 ≤ branchFractionOf uf ∧ branchFractionOf uf < 1)
    ∧ (0 ≤ tierOf ut ∧ tierOf ut < (tiersC : ℤ))
    ∧ (0 ≤ branchAngleOf ua (tierOf ut)
        ∧ branchAngleOf ua (tierOf ut) < 2 * Real.pi) := by
  refine ⟨⟨hf0, hf1⟩, ⟨tierOf_nonneg ht0, tierOf_lt ht0 ht1⟩, ?_, ?_⟩
  · rw [branchAngleOf_eq (tierOf_nonneg ht0)]
    have := Real.pi_pos
    positivity
  · rw [branchAngleOf_eq (tierOf_nonneg ht0)]
    have hpi := Real.pi_pos
    nlinarith

/-- C2 witness: the range theorem applied at the all-zero draws. -/
theorem descriptor_ranges_witness :
    ((0 : ℝ) ≤ 0 ∧ (0 : ℝ) < 1)
    ∧ ((0 ≤ branchFractionOf 0 ∧ branchFractionOf 0 < 1)
       ∧ (0 ≤ tierOf 0 ∧ tierOf 0 < (tiersC : ℤ))
       ∧ (0 ≤ branchAngleOf 0 (tierOf 0)
           ∧ branchAngleOf 0 (tierOf 0) < 2 * Real.pi)) :=
  ⟨by norm_num,
   descriptor_ranges 0 0 0 (by norm_num) (by norm_num) (by norm_num)
     (by norm_num) (by norm_num) (by norm_num)⟩

/-- C3: the generated `branchAngle` is NOT quantized to multiples of
`2π/(8 + tier)`.  At the angle draw `u = 1/3` with `tier = 0` the source
computes `(1/3 * 8) * (2π/8) = 2π/3`, which is no integer multiple of
`2π/8`: the missing `Math.floor` around `Math.random() * branchesPerTier`
makes the `branchesPerTier` factor cancel. -/
theorem branchAngle_not_quantized :
    branchAngleOf (1 / 3) 0 = 2 * Real.pi / 3
    ∧ ¬∃ k : ℤ, branchAngleOf (1 / 3) 0 = (k : ℝ) * (2 * Real.pi / 8) := by
  have hval : branchAngleOf (1 / 3) 0 = 2 * Real.pi / 3 := by
    unfold branchAngleOf
    push_cast
    ring
  refine ⟨hval, ?_⟩
  rintro ⟨k, hk⟩
  rw [hval] at hk
  have h3 : ((16 : ℝ) - 6 * (k : ℝ)) * Real.pi = 0 := by ring_nf; nlinarith [hk]
  rcases mul_eq_zero.mp h3 with h5 | h5
  · have h6 : (6 : ℝ) * (k : ℝ) = 16 := by linarith
    have h7 : (6 * k : ℤ) = 16 := by exact_mod_cast h6
    omega
  · exact Real.pi_ne_zero h5

/-! ### TREE-mode field evaluation (`HolidayApp.update`, TREE branch) -/

/-- A 3-vector of reals (positions of meteors and field targets). -/
structure V3 where
  x : ℝ
  y : ℝ
  z : ℝ

/-- The TREE-mode target position of one particle, exactly as computed in
`HolidayApp.update`: tier geometry, angular perturbation, droop, sway, the
`-51.8` floor clamp on the height, and the fixed jitter offsets. -/
noncomputable def treeTarget (i : ℕ) (time : ℝ)
    (distAlongBranch tierIndex branchAngle : ℝ) (isBranch : Bool)
    (jx jy jz : ℝ) : V3 :=
  let tierT := tierIndex / (tiersC : ℝ)
  let tierHeight := (1 - tierT) * treeHeightC - treeHeightC / 2 + 12
  let adjustedTierT := tierT ^ (1.1 : ℝ)
  let tierRadiusMax := adjustedTierT * treeRadiusC
  let subAngleScale : ℝ := if isBranch then 0.2 else 2.5
  let actualAngle := branchAngle + (Real.sin ((i : ℝ) * 0.01) * subAngleScale * (1 - distAlongBranch))
  let droop := distAlongBranch ^ (1.4 : ℝ) * 7
  let sway := Real.sin (time * 0.4 + tierIndex * 0.6) * 0.15
  let branchRadius := distAlongBranch * tierRadiusMax
  let tx := Real.cos (actualAngle + sway) * branchRadius + jx
  let calculatedTy := tierHeight - droop + jy + Real.sin (time * 0.8 + tierIndex) * 0.5
  let floorLimit : ℝ := -51.8
  let ty := max calculatedTy floorLimit
  let tz := Real.sin (actualAngle + sway) * branchRadius + jz
  ⟨tx, ty, tz⟩

/-- C5: for every tree-field descriptor with `tier ∈ [0, tiersC)` and
`branchFraction ∈ [0,1)`, and every elapsed time, the TREE-mode target has
vertical coordinate at least `-51.8` (the floor clamp). -/
theorem tree_target_above_floor (i : ℕ) (time : ℝ)
    (distAlongBranch tierIndex branchAngle : ℝ) (isBranch : Bool)
    (jx jy jz : ℝ)
    (hd0 : 0 ≤ distAlongBranch) (hd1 : distAlongBranch < 1)
    (ht0 : 0 ≤ tierIndex) (ht1 : tierIndex < (tiersC : ℝ)) :
    (treeTarget i time distAlongBranch tierIndex branchAngle isBranch jx jy jz).y
      ≥ -51.8 := by
  unfold treeTarget
  exact le_max_right _ _

/-- C5 witness: the floor-clamp theorem at a concrete descriptor (tier 0,
fraction 0, angle 0, needle particle, zero jitter) at time 0. -/
theorem tree_target_above_floor_witness :
    ((0 : ℝ) ≤ 0 ∧ (0 : ℝ) < 1 ∧ (0 : ℝ) < (tiersC : ℝ))
    ∧ (treeTarget 0 0 0 0 0 false 0 0 0).y ≥ -51.8 :=
  ⟨by norm_num [tiersC],
   tree_target_above_floor 0 0 0 0 0 false 0 0 0
     (by norm_num) (by norm_num) (by norm_num) (by norm_num [tiersC])⟩

/-! ### Per-frame auxiliary smoothing (`HolidayApp.update`) -/

/-- `THREE.MathUtils.lerp(x, y, t) = (1 - t) * x + t * y`. -/
def lerp (x y t : ℝ) : ℝ := (1 - t) * x + t * y

/-- `const targetFloorY = this.state.mode === 'TREE' ? -52 : -140`. -/
def targetFloorY (m : Mode) : ℝ := if m = Mode.TREE then -52 else -140

/-- `this.galaxyFloor.position.y = THREE.MathUtils.lerp(position.y, targetFloorY, 0.05)`. -/
def floorYStep (y : ℝ) (m : Mode) : ℝ := lerp y (targetFloorY m) 0.05

/-- The heart pulse target
`heartVisible * (1 + Math.sin(time * 2.5) * 0.06)` with
`heartVisible = mode === 'TREE' ? 1 : 0`. -/
noncomputable def heartScaleTarget (m : Mode) (time : ℝ) : ℝ :=
  (if m = Mode.TREE then 1 else 0) * (1 + Real.sin (time * 2.5) * 0.06)

/-- `this.heart.scale.setScalar(THREE.MathUtils.lerp(scale.x, target, 0.1))`. -/
noncomputable def heartScaleStep (s : ℝ) (m : Mode) (time : ℝ) : ℝ :=
  lerp s (heartScaleTarget m time) 0.1

/-- C6 counterexample: at heart scale 0, TREE mode, time 0, the frame advances
the heart scale to `0.1`, not to `0 + (target - 0) * 0.05 = 0.05`: the heart
pulse uses smoothing factor `0.1`, so the claim that both quantities use
`α = 0.05` is false. -/
theorem heart_scale_alpha_counterexample :
    heartScaleStep 0 Mode.TREE 0 = 0.1
    ∧ heartScaleStep 0 Mode.TREE 0
        ≠ 0 + (heartScaleTarget Mode.TREE 0 - 0) * 0.05 := by
  have htarget : heartScaleTarget Mode.TREE 0 = 1 := by
    unfold heartScaleTarget
    norm_num
  constructor
  · unfold heartScaleStep lerp
    rw [htarget]
    norm_num
  · unfold heartScaleStep lerp
    rw [htarget]
    norm_num

/-- C6 (amended): each frame the floor vertical offset eases toward its
target with smoothing factor `0.05`, while the heart pulsing scale eases
toward its target with smoothing factor `0.1`; both are the exponential
form `new = old + (target - old) * α`. -/
theorem smoothing_factors (y s time : ℝ) (m : Mode) :
    floorYStep y m = y + (targetFloorY m - y) * 0.05
    ∧ heartScaleStep s m time = s + (heartScaleTarget m time - s) * 0.1 := by
  constructor
  · unfold floorYStep lerp; ring
  · unfold heartScaleStep lerp; ring

/-! ### Interaction state (`onPointerMove` / `onPointerUp`) -/

/-- The engine's `AppState` interface (interaction-relevant fields). -/
structure AppState where
  mode : Mode
  theme : String
  handX : ℝ
  handY : ℝ
  isPointerDown : Bool
  pointerX : ℝ
  pointerY : ℝ
  manualRotX : ℝ
  manualRotY : ℝ
  clickStartX : ℝ
  clickStartY : ℝ

/-- The state installed by the `HolidayApp` constructor. -/
def initialState : AppState :=
  ⟨Mode.TREE, "classic", 0, 0, false, 0, 0, 0, 0, 0, 0⟩

/-- `const modes: Mode[] = ['TREE', 'SCATTER']`. -/
def modesList : List Mode := [Mode.TREE, Mode.SCATTER]

/-- `modes[(modes.indexOf(mode) + 1) % modes.length]` (the default value of
`getD` is never reached: the index is always in range). -/
def nextMode (m : Mode) : Mode :=
  modesList.getD ((modesList.indexOf m + 1) % modesList.length) Mode.TREE

theorem nextMode_ne (m : Mode) : nextMode m ≠ m := by
  cases m <;> decide

/-- `HolidayApp.onPointerMove`: an early return when no pointer is down;
otherwise the drag delta accumulates into the manual rotation and the
tracked pointer position advances. -/
def onPointerMove (s : AppState) (ex ey : ℝ) : AppState :=
  if s.isPointerDown = false then s
  else
    { s with
      manualRotY := s.manualRotY + (ex - s.pointerX) * 0.005,
      manualRotX := s.manualRotX + (ey - s.pointerY) * 0.005,
      pointerX := ex,
      pointerY := ey }

open Classical in
/-- `HolidayApp.onPointerUp`: an early return when no pointer is down;
otherwise the pointer is released and, when the Euclidean displacement from
`clickStartPos` is strictly below 5, the mode cycles. -/
noncomputable def onPointerUp (s : AppState) (ex ey : ℝ) : AppState :=
  if s.isPointerDown = false then s
  else
    let s1 := { s with isPointerDown := false }
    let dist := Real.sqrt ((ex - s.clickStartX) ^ 2 + (ey - s.clickStartY) ^ 2)
    if dist < 5 then { s1 with mode := nextMode s1.mode } else s1

/-- C7: after a pointer-down, a pointer-up toggles the mode exactly when the
Euclidean displacement from the down-position is strictly less than 5
pixels; a displacement of exactly 5 leaves the mode unchanged (drag), and a
zero displacement always advances the mode to the next one in the cycle. -/
theorem click_toggle (s : AppState) (ex ey : ℝ) (h : s.isPointerDown = true) :
    ((onPointerUp s ex ey).mode ≠ s.mode
        ↔ Real.sqrt ((ex - s.clickStartX) ^ 2 + (ey - s.clickStartY) ^ 2) < 5)
    ∧ (Real.sqrt ((ex - s.clickStartX) ^ 2 + (ey - s.clickStartY) ^ 2) = 5
        → (onPointerUp s ex ey).mode = s.mode)
    ∧ (ex = s.clickStartX ∧ ey = s.clickStartY
        → (onPointerUp s ex ey).mode = nextMode s.mode) := by
  have hne : ¬(s.isPointerDown = false) := by simp [h]
  unfold onPointerUp
  rw [if_neg hne]
  by_cases hd : Real.sqrt ((ex - s.clickStartX) ^ 2 + (ey - s.clickStartY) ^ 2) < 5
  · rw [if_pos hd]
    refine ⟨⟨fun _ => hd, fun _ => nextMode_ne s.mode⟩, fun he => ?_, fun _ => rfl⟩
    rw [he] at hd
    exact absurd hd (lt_irrefl 5)
  · rw [if_neg hd]
    refine ⟨⟨fun hmode => absurd rfl hmode, fun hlt => absurd hlt hd⟩, fun _ => rfl, ?_⟩
    rintro ⟨hx, hy⟩
    exfalso
    apply hd
    rw [hx, hy]
    simp [Real.sqrt_zero]

/-- The state right after a pointer-down at the origin. -/
def pointerDownState : AppState := { initialState with isPointerDown := true }

/-- C7 witness: the click/drag theorem at the concrete released position
(3,4), whose displacement from the down-position (0,0) is exactly 5. -/
theorem click_toggle_witness :
    pointerDownState.isPointerDown = true
    ∧ (((onPointerUp pointerDownState 3 4).mode ≠ pointerDownState.mode
          ↔ Real.sqrt ((3 - pointerDownState.clickStartX) ^ 2
              + (4 - pointerDownState.clickStartY) ^ 2) < 5)
       ∧ (Real.sqrt ((3 - pointerDownState.clickStartX) ^ 2
              + (4 - pointerDownState.clickStartY) ^ 2) = 5
          → (onPointerUp pointerDownState 3 4).mode = pointerDownState.mode)
       ∧ ((3 : ℝ) = pointerDownState.clickStartX ∧ (4 : ℝ) = pointerDownState.clickStartY
          → (onPointerUp pointerDownState 3 4).mode = nextMode pointerDownState.mode)) :=
  ⟨rfl, click_toggle pointerDownState 3 4 rfl⟩

/-- C10: a pointer-up or pointer-move that arrives while no pointer-down is
active leaves the whole interaction state (mode, manual rotation, pointer
bookkeeping, everything) unchanged. -/
theorem pointer_noop (s : AppState) (ex ey mx my : ℝ)
    (h : s.isPointerDown = false) :
    onPointerUp s ex ey = s ∧ onPointerMove s mx my = s := by
  constructor
  · unfold onPointerUp; rw [if_pos h]
  · unfold onPointerMove; rw [if_pos h]

/-- C10 witness: the no-op theorem at the initial state (pointer not down)
and concrete event coordinates. -/
theorem pointer_noop_witness :
    initialState.isPointerDown = false
    ∧ onPointerUp initialState 1 2 = initialState
    ∧ onPointerMove initialState 3 4 = initialState :=
  ⟨rfl, (pointer_noop initialState 1 2 3 4 rfl).1,
   (pointer_noop initialState 1 2 3 4 rfl).2⟩

/-! ### Meteor pool (`class Meteor`, vite.config.ts variant) -/

/-- The mutable state of one pooled meteor body: mesh position, velocity,
and visual scale. -/
structure MeteorState where
  pos : V3
  vel : V3
  scale : ℝ

/-- The seven `Math.random()` draws consumed by one call of `Meteor.reset`,
in source order: depth bias, horizontal spawn, vertical spawn, speed,
spread, lateral velocity, and scale. -/
structure ResetDraws where
  zDraw : ℝ
  xDraw : ℝ
  yDraw : ℝ
  speedDraw : ℝ
  spreadDraw : ℝ
  zVelDraw : ℝ
  scaleDraw : ℝ

open Classical in
/-- `Meteor.reset`: depth-biased spawn position, diagonal drift velocity
(`normalize()` guards a zero length with 1, as `length() || 1` does), and a
perspective-compensated scale.  The quaternion write only orients the mesh
and carries no pool state. -/
noncomputable def resetMeteor (d : ResetDraws) : MeteorState :=
  let zBias := d.zDraw ^ 2
  let startZ := -3000 + zBias * 2700
  let frustumWidth := |startZ| * 1.6
  let startX := -frustumWidth / 2 - (d.xDraw * frustumWidth * 0.5)
  let startY := 800 + d.yDraw * 800
  let speed := 3.5 + d.speedDraw * 5.5
  let spread := (d.spreadDraw - 0.5) * 0.1
  let v : V3 := ⟨1.4, -1.0 + spread, (d.zVelDraw - 0.5) * 0.2⟩
  let len := Real.sqrt (v.x ^ 2 + v.y ^ 2 + v.z ^ 2)
  let denom := if len = 0 then 1 else len
  let vel : V3 := ⟨v.x / denom * speed, v.y / denom * speed, v.z / denom * speed⟩
  let perspectiveCompensation := 1.0 + (1.0 - zBias) * 2.0
  let s := perspectiveCompensation * (0.8 + d.scaleDraw * 1.5)
  ⟨⟨startX, startY, startZ⟩, vel, s⟩

open Classical in
/-- `Meteor.update`: translate by the velocity, then reset in place when the
body leaves the bounding volume (`y < -1200 || x > 3500`). -/
noncomputable def meteorUpdate (m : MeteorState) (d : ResetDraws) : MeteorState :=
  let p : V3 := ⟨m.pos.x + m.vel.x, m.pos.y + m.vel.y, m.pos.z + m.vel.z⟩
  if p.y < -1200 ∨ p.x > 3500 then resetMeteor d else { m with pos := p }

/-- Every `Math.random()` draw of a reset lies in `[0,1)`. -/
def ValidDraws (d : ResetDraws) : Prop :=
  (0 ≤ d.zDraw ∧ d.zDraw < 1) ∧ (0 ≤ d.xDraw ∧ d.xDraw < 1)
  ∧ (0 ≤ d.yDraw ∧ d.yDraw < 1) ∧ (0 ≤ d.speedDraw ∧ d.speedDraw < 1)
  ∧ (0 ≤ d.spreadDraw ∧ d.spreadDraw < 1) ∧ (0 ≤ d.zVelDraw ∧ d.zVelDraw < 1)
  ∧ (0 ≤ d.scaleDraw ∧ d.scaleDraw < 1)

/-- C8: a meteor whose frame-k translation leaves the bounding volume
(height below -1200 or horizontal coordinate above 3500) starts frame k+1
in a fresh spawn state: the update is exactly one call of `reset`, whose
height is at least 800 and whose horizontal coordinate is negative, for
every sequence of uniform draws. -/
theorem meteor_recycles (m : MeteorState) (d : ResetDraws) (hd : ValidDraws d)
    (hout : m.pos.y + m.vel.y < -1200 ∨ m.pos.x + m.vel.x > 3500) :
    meteorUpdate m d = resetMeteor d
    ∧ 800 ≤ (meteorUpdate m d).pos.y
    ∧ (meteorUpdate m d).pos.x < 0 := by
  obtain ⟨⟨hz0, hz1⟩, ⟨hx0, _⟩, ⟨hy0, _⟩, _, _, _, _⟩ := hd
  have heq : meteorUpdate m d = resetMeteor d := by
    unfold meteorUpdate
    exact if_pos hout
  refine ⟨heq, ?_, ?_⟩
  · rw [heq]
    have hy : (resetMeteor d).pos.y = 800 + d.yDraw * 800 := rfl
    rw [hy]
    nlinarith
  · rw [heq]
    have hx : (resetMeteor d).pos.x
        = -(|(-3000 : ℝ) + d.zDraw ^ 2 * 2700| * 1.6) / 2
          - (d.xDraw * (|(-3000 : ℝ) + d.zDraw ^ 2 * 2700| * 1.6) * 0.5) := rfl
    rw [hx]
    have hzb : d.zDraw ^ 2 < 1 := by nlinarith
    have hneg : (-3000 : ℝ) + d.zDraw ^ 2 * 2700 < 0 := by nlinarith
    rw [abs_of_neg hneg]
    nlinarith

/-- A meteor already below the lower height bound, at rest. -/
def meteorOut : MeteorState := ⟨⟨0, -2000, 0⟩, ⟨0, 0, 0⟩, 1⟩

/-- The all-zero draw sequence for one reset. -/
def zeroDraws : ResetDraws := ⟨0, 0, 0, 0, 0, 0, 0⟩

/-- C8 witness: the recycling theorem at a concrete out-of-bounds meteor and
the all-zero draws. -/
theorem meteor_recycles_witness :
    ValidDraws zeroDraws
    ∧ (meteorOut.pos.y + meteorOut.vel.y < -1200
        ∨ meteorOut.pos.x + meteorOut.vel.x > 3500)
    ∧ (meteorUpdate meteorOut zeroDraws = resetMeteor zeroDraws
       ∧ 800 ≤ (meteorUpdate meteorOut zeroDraws).pos.y
       ∧ (meteorUpdate meteorOut zeroDraws).pos.x < 0) := by
  have hv : ValidDraws zeroDraws := by
    unfold ValidDraws zeroDraws
    norm_num
  have ht : meteorOut.pos.y + meteorOut.vel.y < -1200
      ∨ meteorOut.pos.x + meteorOut.vel.x > 3500 := by
    left
    show (-2000 : ℝ) + 0 < -1200
    norm_num
  exact ⟨hv, ht, meteor_recycles meteorOut zeroDraws hv ht⟩

/-! ### Theme palette and recoloring (`THEMES`, `HolidayApp.updateTreeColors`)

The color arithmetic mirrors the `THREE.Color` methods the source calls:
`setHex`, `multiplyScalar`, `offsetHSL` (which is `getHSL` followed by
`setHSL`), together with `THREE.MathUtils.clamp` and `euclideanModulo`.
All of it is exact rational arithmetic.
-/

/-- An RGB color with components as exact rationals (THREE.Color state). -/
structure Color where
  r : ℚ
  g : ℚ
  b : ℚ
deriving DecidableEq, Repr

/-- `Color.setHex`: `r = hex >> 16 & 255 / 255`, `g = hex >> 8 & 255 / 255`,
`b = hex & 255 / 255`. -/
def hexToColor (hex : ℕ) : Color :=
  ⟨(((hex >>> 16) &&& 255 : ℕ) : ℚ) / 255,
   (((hex >>> 8) &&& 255 : ℕ) : ℚ) / 255,
   ((hex &&& 255 : ℕ) : ℚ) / 255⟩

/-- `Color.multiplyScalar`. -/
def mulScalar (c : Color) (s : ℚ) : Color := ⟨c.r * s, c.g * s, c.b * s⟩

/-- `THREE.MathUtils.clamp(value, min, max) = Math.max(min, Math.min(max, value))`. -/
def clampQ (value lo hi : ℚ) : ℚ := max lo (min hi value)

/-- `THREE.MathUtils.euclideanModulo(n, m) = ((n % m) + m) % m`, which for
`m > 0` is the floor-division remainder `n - m * ⌊n / m⌋` (the only use here
is `m = 1`). -/
def euclideanModulo (n m : ℚ) : ℚ := n - m * (⌊n / m⌋ : ℤ)

/-- The `hue2rgb` helper of `THREE.Color.setHSL`. -/
def hue2rgb (p q t : ℚ) : ℚ :=
  let t1 := if t < 0 then t + 1 else t
  let t2 := if t1 > 1 then t1 - 1 else t1
  if t2 < 1 / 6 then p + (q - p) * 6 * t2
  else if t2 < 1 / 2 then q
  else if t2 < 2 / 3 then p + (q - p) * 6 * (2 / 3 - t2)
  else p

/-- `THREE.Color.getHSL`: (hue, saturation, lightness) of a color; the
`switch (max)` matches `r`, then `g`, then `b`. -/
def getHSL (c : Color) : ℚ × ℚ × ℚ :=
  let maxv := max c.r (max c.g c.b)
  let minv := min c.r (min c.g c.b)
  let lightness := (minv + maxv) / 2
  if minv = maxv then (0, 0, lightness)
  else
    let delta := maxv - minv
    let saturation :=
      if lightness ≤ 1 / 2 then delta / (maxv + minv) else delta / (2 - maxv - minv)
    let hue :=
      if maxv = c.r then (c.g - c.b) / delta + (if c.g < c.b then 6 else 0)
      else if maxv = c.g then (c.b - c.r) / delta + 2
      else (c.r - c.g) / delta + 4
    (hue / 6, saturation, lightness)

/-- `THREE.Color.setHSL`. -/
def setHSL (h s l : ℚ) : Color :=
  let h1 := euclideanModulo h 1
  let s1 := clampQ s 0 1
  let l1 := clampQ l 0 1
  if s1 = 0 then ⟨l1, l1, l1⟩
  else
    let p := if l1 ≤ 1 / 2 then l1 * (1 + s1) else l1 + s1 - l1 * s1
    let q := 2 * l1 - p
    ⟨hue2rgb q p (h1 + 1 / 3), hue2rgb q p h1, hue2rgb q p (h1 - 1 / 3)⟩

/-- `THREE.Color.offsetHSL(h, s, l)`: read the HSL of the color and set it
back with the offsets added. -/
def offsetHSL (c : Color) (dh ds dl : ℚ) : Color :=
  let hsl := getHSL c
  setHSL (hsl.1 + dh) (hsl.2.1 + ds) (hsl.2.2 + dl)

/-- One named palette of `THEMES`: needle, glow, and four ornament colors. -/
structure Theme where
  needle : ℕ
  glow : ℕ
  ornaments : List ℕ
deriving DecidableEq, Repr

/-- `THEMES.classic`. -/
def classicTheme : Theme := ⟨0x05331a, 0x77cc99, [0xffd700, 0xff3333, 0xffffff, 0xffbbbb]⟩

/-- `THEMES.gold`. -/
def goldTheme : Theme := ⟨0x5a4a15, 0xffd700, [0xffffff, 0xffe082, 0xffb74d, 0xffffff]⟩

/-- `THEMES.crimson`. -/
def crimsonTheme : Theme := ⟨0x3d0000, 0xff4d4d, [0xffffff, 0xffd700, 0xff9999, 0xffbbbb]⟩

/-- `THEMES.midnight`. -/
def midnightTheme : Theme := ⟨0x001533, 0x4dd2ff, [0xffffff, 0x90caf9, 0xb3e5fc, 0x81d4fa]⟩

/-- `THEMES.snow`. -/
def snowTheme : Theme := ⟨0xe0e0e0, 0xb3e5fc, [0x4dd2ff, 0xffffff, 0x90caf9, 0xffd700]⟩

/-- The property access `THEMES[name]`: `some` palette for the five known
keys, `none` (JavaScript `undefined`) for every other string. -/
def themeLookup (k : String) : Option Theme :=
  if k = "classic" then some classicTheme
  else if k = "gold" then some goldTheme
  else if k = "crimson" then some crimsonTheme
  else if k = "midnight" then some midnightTheme
  else if k = "snow" then some snowTheme
  else none

/-- The three `Math.random()` draws one loop iteration of `updateTreeColors`
may consume: the branch/needle/ornament selector `r`, the lightness jitter
draw, and the ornament index draw. -/
structure ColorDraws where
  rDraw : ℚ
  lightDraw : ℚ
  ornamentDraw : ℚ

/-- The color choice of one `updateTreeColors` loop iteration: glow color
scaled by 1.02 for branch particles; otherwise with `r < 0.85` the needle
color with a lightness jitter, else an ornament color scaled by 0.9 (the
`getD` default is never reached for an ornament draw in `[0,1)`). -/
def computeParticleColor (th : Theme) (isBranch : Bool) (d : ColorDraws) : Color :=
  if isBranch then mulScalar (hexToColor th.glow) 1.02
  else if d.rDraw < 0.85 then
    offsetHSL (hexToColor th.needle) 0 0 ((d.lightDraw - 0.5) * 0.05)
  else
    mulScalar
      (hexToColor (th.ornaments.getD
        (⌊d.ornamentDraw * (th.ornaments.length : ℚ)⌋.toNat) 0)) 0.9

/-- The per-particle buffers of the tree field: flat arrays
`treeBranchParams` (stride 4), `treeJitters` (stride 3), the position buffer
and the color buffer (stride 3 each). -/
structure TreeState where
  branchParams : List ℚ
  jitters : List ℚ
  positions : List ℚ
  colors : List ℚ
deriving Repr

/-- Write one RGB triple at stride-3 offset `3*i` of the color buffer. -/
def writeColor3 (colors : List ℚ) (base : ℕ) (c : Color) : List ℚ :=
  ((colors.set base c.r).set (base + 1) c.g).set (base + 2) c.b

/-- One iteration of the `updateTreeColors` loop: read
`treeBranchParams[4i+3] === 1` (an out-of-range read is `undefined`, which
compares unequal to 1, as `getD` with default 0 does), compute the color,
and write it into the color buffer. -/
def colorStep (th : Theme) (draws : ℕ → ColorDraws) (s : TreeState) (i : ℕ) : TreeState :=
  let isBranch : Bool := decide (s.branchParams.getD (4 * i + 3) 0 = 1)
  let c := computeParticleColor th isBranch (draws i)
  { s with colors := writeColor3 s.colors (3 * i) c }

/-- `HolidayApp.updateTreeColors` with the palette already resolved: the
loop over all particle indices. -/
def updateTreeColorsState (count : ℕ) (th : Theme) (draws : ℕ → ColorDraws)
    (s : TreeState) : TreeState :=
  (List.range count).foldl (colorStep th draws) s

/-- The engine state the theme-selector handler touches. -/
structure UiState where
  theme : String
  tree : TreeState

/-- The `theme-selector` change handler of `HolidayApp.initUI`:
`state.theme = value; updateTreeColors()`.  The theme field is assigned
first; `updateTreeColors` then reads `THEMES[state.theme]` and, on an
unknown key, throws a TypeError at the first palette property access,
before any color write — modelled by the `false` completion flag with the
tree buffers untouched. -/
def onThemeChange (count : ℕ) (key : String) (draws : ℕ → ColorDraws)
    (s : UiState) : UiState × Bool :=
  let s1 : UiState := { s with theme := key }
  match themeLookup key with
  | none => (s1, false)
  | some th => ({ s1 with tree := updateTreeColorsState count th draws s1.tree }, true)

theorem foldl_colorStep_frame (th : Theme) (draws : ℕ → ColorDraws) :
    ∀ (l : List ℕ) (s : TreeState),
      (l.foldl (colorStep th draws) s).branchParams = s.branchParams
      ∧ (l.foldl (colorStep th draws) s).jitters = s.jitters
      ∧ (l.foldl (colorStep th draws) s).positions = s.positions := by
  intro l
  induction l with
  | nil => intro s; exact ⟨rfl, rfl, rfl⟩
  | cons a tl ih =>
    intro s
    have h := ih (colorStep th draws s a)
    simpa [colorStep] using h

/-- C4: for every particle count, palette, random-draw sequence and buffer
state, `updateTreeColors` leaves the descriptor array (`treeBranchParams`),
the jitter array and the position buffer exactly unchanged; only the color
buffer is written. -/
theorem updateTreeColors_frame (count : ℕ) (th : Theme) (draws : ℕ → ColorDraws)
    (s : TreeState) :
    (updateTreeColorsState count th draws s).branchParams = s.branchParams
    ∧ (updateTreeColorsState count th draws s).jitters = s.jitters
    ∧ (updateTreeColorsState count th draws s).positions = s.positions :=
  foldl_colorStep_frame th draws (List.range count) s

/-- C9: the recolor pass completes normally only for a key of the known
palette set; for any unknown key it aborts with no color write at all and
never substitutes a different palette. -/
theorem invalid_theme_rejected (count : ℕ) (key : String)
    (draws : ℕ → ColorDraws) (s : UiState) :
    (themeLookup key = none →
        (onThemeChange count key draws s).2 = false
        ∧ (onThemeChange count key draws s).1.tree = s.tree)
    ∧ ((onThemeChange count key draws s).2 = true →
        ∃ th, themeLookup key = some th) := by
  constructor
  · intro hnone
    unfold onThemeChange
    rw [hnone]
    exact ⟨rfl, rfl⟩
  · intro hdone
    cases hsome : themeLookup key with
    | none =>
      exfalso
      unfold onThemeChange at hdone
      rw [hsome] at hdone
      exact Bool.false_ne_true hdone
    | some th => exact ⟨th, rfl⟩

/-- An empty-buffer engine state on the startup theme. -/
def uiStart : UiState := ⟨"classic", ⟨[], [], [], []⟩⟩

/-- The all-zero color draws. -/
def zeroColorDraws : ℕ → ColorDraws := fun _ => ⟨0, 0, 0⟩

/-- C9 witness: the rejection theorem at the concrete unknown key "neon"
with the configured particle count. -/
theorem invalid_theme_rejected_witness :
    themeLookup "neon" = none
    ∧ (onThemeChange treeParticleCountC "neon" zeroColorDraws uiStart).2 = false
    ∧ (onThemeChange treeParticleCountC "neon" zeroColorDraws uiStart).1.tree
        = uiStart.tree := by
  have hnone : themeLookup "neon" = none := by decide
  have h := (invalid_theme_rejected treeParticleCountC "neon" zeroColorDraws uiStart).1 hnone
  exact ⟨hnone, h.1, h.2⟩
